import Mathlib

/-!
Shallow embedding of the TabbedTiling GNOME extension core
(modules/Zone.js, modules/TabBar.js, modules/Tab.js,
modules/WindowManager.js, modules/TabDND.js) and proofs of the
testable properties stated in its specification.

Windows and zones are identified by natural numbers; JS strings are
Lean strings; nullable JS values are `Option`s.
-/

namespace TabbedTiling

/-! ## Zone geometry: `Zone.split` (Zone.js lines 452-486) -/

namespace ZoneGeom

/-- A zone rectangle, monitor-relative, as in the zone configuration
(`x`, `y`, `width`, `height`). Sizes and offsets are naturals, matching
the non-negative integer pixel values of a zone configuration. -/
structure Rect where
  x : Nat
  y : Nat
  width : Nat
  height : Nat
deriving Repr, DecidableEq

/-- Split direction accepted by `Zone.split` (the `direction` argument,
already validated against the list `['horizontal', 'vertical']`). -/
inductive SplitDir where
  | horizontal
  | vertical
deriving Repr, DecidableEq

/-- The two child rectangles produced by `Zone.split(direction)`:
`horizontal` halves the height (`newHeight = Math.floor(this.height / 2)`,
first child keeps `y`, second child gets the remainder below it);
`vertical` halves the width the same way. `Nat` division is floor
division, matching `Math.floor` on non-negative values. -/
def split (r : Rect) (d : SplitDir) : Rect × Rect :=
  match d with
  | .horizontal =>
    let newHeight := r.height / 2
    ({ r with height := newHeight },
     { r with height := r.height - newHeight, y := r.y + newHeight })
  | .vertical =>
    let newWidth := r.width / 2
    ({ r with width := newWidth },
     { r with width := r.width - newWidth, x := r.x + newWidth })

/-- Point containment in a rectangle, exactly the half-open test of
`Zone.findLeafZoneAt`: `x >= rect.x && x < rect.x + rect.width &&
y >= rect.y && y < rect.y + rect.height`. -/
def Rect.contains (r : Rect) (px py : Nat) : Prop :=
  r.x ≤ px ∧ px < r.x + r.width ∧ r.y ≤ py ∧ py < r.y + r.height

instance (r : Rect) (px py : Nat) : Decidable (r.contains px py) := by
  unfold Rect.contains; infer_instance

/-- Extent of a rectangle along the axis that a given split direction
divides: `horizontal` splits the height, `vertical` splits the width. -/
def Rect.extent (r : Rect) (d : SplitDir) : Nat :=
  match d with
  | .horizontal => r.height
  | .vertical => r.width

end ZoneGeom

/-! ## Tab grouping roles: `TabBar._updateGroupStyles` (TabBar.js lines 192-246) -/

namespace TabBarModel

/-- The visual grouping role a tab receives from
`TabBar._updateGroupStyles`: `solo` (no `grouped-*` style class),
`groupStart` (`grouped-start`), `groupMiddle` (`grouped-middle`),
`groupEnd` (`grouped-end`). -/
inductive GroupRole where
  | solo
  | groupStart
  | groupMiddle
  | groupEnd
deriving Repr, DecidableEq

/-- JS truthiness of a grouping ID (`currentId && ...`): `null` and the
empty string are falsy; every other string is truthy. -/
def truthy : Option String → Bool
  | none => false
  | some s => !(s == "")

/-- The grouping ID of the tab at position `i` as seen by the role pass:
`children[i] ?? null` gives `null` out of bounds (and `children[i - 1]`
is `undefined`, i.e. null, for the first tab). -/
def idAt (ids : List (Option String)) (i : Nat) : Option String :=
  (ids.get? i).join

/-- The role assigned to the tab at index `i` of the sorted tab sequence
with grouping IDs `ids`, by the single left-to-right pass of
`TabBar._updateGroupStyles`: with `cur`/`prev`/`next` the grouping IDs of
the tab and its neighbors, the tab is `grouped-start` when
`cur && cur === next && cur !== prev`, `grouped-middle` when
`cur && cur === prev && cur === next`, `grouped-end` when
`cur && cur === prev && cur !== next`, and solo otherwise; with at most
one tab every style class is removed (solo). -/
def roleAt (ids : List (Option String)) (i : Nat) : GroupRole :=
  if ids.length ≤ 1 then .solo
  else
    let cur := idAt ids i
    let prev := if i = 0 then none else idAt ids (i - 1)
    let next := idAt ids (i + 1)
    if truthy cur && cur == next && !(cur == prev) then .groupStart
    else if truthy cur && cur == prev && cur == next then .groupMiddle
    else if truthy cur && cur == prev && !(cur == next) then .groupEnd
    else .solo

/-! ### Tab sorting and the tab-bar view state
(`TabBar.reorderTabs`, `TabBar.addTab`, `TabBar.removeTab`,
`TabBar.setActiveTab`, TabBar.js lines 83-165) -/

/-- The configuration-derived key functions used by
`TabBar.reorderTabs`: `getGroupSortKey`, `getSortKey`, and whether
`sortingOrder` is `'DESC'`. Keys are total (Tab.js always falls back to
a non-null string). -/
structure TabKeys where
  groupSortKey : Nat → String
  sortKey : Nat → String
  desc : Bool

/-- The comparator passed to `tabs.sort` in `reorderTabs`: compare the
lower-cased group sort keys first, then the lower-cased sort keys, with
both comparison directions flipped together when the order is DESC. -/
def tabCmp (k : TabKeys) (a b : Nat) : Int :=
  let so : Int := if k.desc then -1 else 1
  let ga := (k.groupSortKey a).toLower
  let gb := (k.groupSortKey b).toLower
  if ga < gb then -1 * so
  else if gb < ga then 1 * so
  else
    let ka := (k.sortKey a).toLower
    let kb := (k.sortKey b).toLower
    let r : Int := if ka < kb then -1 else if kb < ka then 1 else 0
    r * so

/-- Stable insertion of one element into an already-sorted list, placing
it after every element that does not compare strictly greater. -/
def insertTab (lt : Nat → Nat → Bool) (x : Nat) : List Nat → List Nat
  | [] => [x]
  | y :: t => if lt x y then x :: y :: t else y :: insertTab lt x t

/-- Stable sort by repeated insertion, processing elements left to
right; for the total preorder induced by `tabCmp` this computes the same
sequence as the (stable, per ES2019) JS `Array.prototype.sort`. -/
def sortTabs (lt : Nat → Nat → Bool) (l : List Nat) : List Nat :=
  l.foldl (fun acc x => insertTab lt x acc) []

/-- `TabBar.reorderTabs`: with fewer than two tabs only styles are
refreshed; otherwise the children are sorted by the comparator. -/
def reorderTabs (k : TabKeys) (tabs : List Nat) : List Nat :=
  if tabs.length < 2 then tabs
  else sortTabs (fun a b => decide (tabCmp k a b < 0)) tabs

/-- `TabBar.removeTab(window)`: if the window has a tab, remove it from
the container and re-run `reorderTabs`; otherwise do nothing. -/
def removeTab (k : TabKeys) (tabs : List Nat) (w : Nat) : List Nat :=
  if w ∈ tabs then reorderTabs k (tabs.filter (· ≠ w)) else tabs

/-- The observable state of a tab bar: the ordered children of the tab
container, and which window's tab currently carries the `active` style
class (at most one, maintained by `setActiveTab`). -/
structure TabBarState where
  tabs : List Nat
  active : Option Nat
deriving Repr, DecidableEq

/-- `TabBar.setActiveTab(window)`: the loop over `_tabs` adds the
`active` style class exactly to the tab of the given window and removes
it from every other tab, so afterwards the active tab is the given
window when it has a tab, and no tab otherwise. -/
def setActiveTab (s : TabBarState) (w : Nat) : TabBarState :=
  { s with active := if w ∈ s.tabs then some w else none }

/-- `TabBar.addTab(window)` (TabBar.js lines 83-106): if the window
already has a tab, just `setActiveTab` and return; otherwise create a
tab, append it to the container, and re-run `reorderTabs`. -/
def addTab (k : TabKeys) (s : TabBarState) (w : Nat) : TabBarState :=
  if w ∈ s.tabs then setActiveTab s w
  else { tabs := reorderTabs k (s.tabs ++ [w]), active := s.active }

end TabBarModel

/-! ## `Zone.split` / `Zone.merge` round trip over the snapped sets
(Zone.js lines 452-506) -/

namespace SplitMerge

/-- Adding one window to a leaf zone's snapped set, as `snapWindow` does
once the cross-zone step is a no-op (the window was just unsnapped, so
its `_tilingZone` tag is absent): refuse maximized/fullscreen windows,
otherwise add the window if not already present (JS `Set` insertion
order). -/
def snapL (maxfs : Nat → Bool) (l : List Nat) (w : Nat) : List Nat :=
  if maxfs w then l else if w ∈ l then l else l ++ [w]

/-- Removing one window from a leaf zone's snapped set, as
`unsnapWindow` does (`Set.delete`). -/
def unsnapL (l : List Nat) (w : Nat) : List Nat :=
  l.filter (· ≠ w)

/-- The snapped sets of a zone subtree right after a split: the zone
itself and its two children. -/
structure SplitZone where
  parent : List Nat
  child1 : List Nat
  child2 : List Nat
deriving Repr, DecidableEq

/-- `Zone.split(direction)` restricted to its effect on snapped sets:
snapshot `windowsToMove` from the zone's snapped set, unsnap each from
the zone, create two empty children, and snap every snapshotted window
into the first child. -/
def split (maxfs : Nat → Bool) (parent : List Nat) : SplitZone :=
  let windowsToMove := parent
  { parent := windowsToMove.foldl unsnapL parent,
    child1 := windowsToMove.foldl (snapL maxfs) [],
    child2 := [] }

/-- `Zone.merge()` restricted to its effect on snapped sets: collect the
children's windows (`flatMap`), destroy the children (which unsnaps all
their windows), and snap every collected window into the zone itself. -/
def merge (maxfs : Nat → Bool) (s : SplitZone) : List Nat :=
  let windowsToMove := s.child1 ++ s.child2
  windowsToMove.foldl (snapL maxfs) s.parent

/-- `split(direction)` immediately followed by `merge()` on a leaf zone,
observed at the zone's snapped set. -/
def splitThenMerge (maxfs : Nat → Bool) (parent : List Nat) : List Nat :=
  merge maxfs (split maxfs parent)

end SplitMerge

/-! ## Zone tree snapped-window state: `Zone.snapWindow` / `Zone.unsnapWindow`
(Zone.js lines 200-284) -/

namespace ZoneTree

/-- Windows are identified by opaque handles; we use naturals. -/
abbrev Window := Nat

/-- Leaf zones of the zone tree, identified by opaque handles. -/
abbrev ZoneId := Nat

/-- The snapped-window bookkeeping shared by all leaf zones:
`snapped z` is zone `z`'s `_snappedWindows` set (a JS `Set`, kept in
insertion order), and `tag w` is the `window._tilingZone` back-reference
tag (`none` when the property is absent). -/
structure ZoneState where
  snapped : ZoneId → List Window
  tag : Window → Option ZoneId

/-- The initial state: no window is snapped anywhere and no window
carries a `_tilingZone` tag. -/
def initState : ZoneState := ⟨fun _ => [], fun _ => none⟩

/-- `Zone.unsnapWindow(window)` on leaf zone `z`: if the window is in the
zone's snapped set, delete it from the set and delete the window's
`_tilingZone` tag (the MRU/active-window fallback below those lines does
not touch the snapped set of any zone); otherwise do nothing. -/
def unsnapWindow (s : ZoneState) (z : ZoneId) (w : Window) : ZoneState :=
  if w ∈ s.snapped z then
    { snapped := fun z' => if z' = z then (s.snapped z).filter (· ≠ w) else s.snapped z',
      tag := fun w' => if w' = w then none else s.tag w' }
  else s

/-- The cross-zone step at the top of `Zone.snapWindow`: if
`window._tilingZone` is set and names a different zone, unsnap the
window from that zone first. -/
def crossUnsnap (s : ZoneState) (z : ZoneId) (w : Window) : ZoneState :=
  match s.tag w with
  | some z0 => if z0 ≠ z then unsnapWindow s z0 w else s
  | none => s

/-- `Zone.snapWindow(window)` on leaf zone `z`: refuse when the window is
maximized or fullscreen; otherwise unsnap the window from any different
zone it is tagged with, then, if it is not already in this zone's
snapped set, add it and tag it with this zone. The geometry and
activation steps that follow in the source do not change any snapped
set. -/
def snapWindow (s : ZoneState) (z : ZoneId) (w : Window)
    (maxOrFullscreen : Bool) : ZoneState :=
  if maxOrFullscreen then s
  else
    let s1 := crossUnsnap s z w
    if w ∈ s1.snapped z then s1
    else
      { snapped := fun z' => if z' = z then s1.snapped z' ++ [w] else s1.snapped z',
        tag := fun w' => if w' = w then some z else s1.tag w' }

/-- One snap or unsnap operation addressed to a leaf zone (a snap
addressed to a split parent is delegated unchanged to its first child,
so every executed operation is a leaf operation). -/
inductive ZoneOp where
  | snap (z : ZoneId) (w : Window) (maxOrFullscreen : Bool)
  | unsnap (z : ZoneId) (w : Window)

/-- Apply one operation. -/
def applyOp (s : ZoneState) : ZoneOp → ZoneState
  | .snap z w b => snapWindow s z w b
  | .unsnap z w => unsnapWindow s z w

/-- Apply a sequence of operations, oldest first. -/
def applyOps (s : ZoneState) (ops : List ZoneOp) : ZoneState :=
  ops.foldl applyOp s

/-- The consistency invariant the code maintains between the per-zone
snapped sets and the `_tilingZone` tags: a window is in a zone's snapped
set exactly when its tag names that zone. -/
def Consistent (s : ZoneState) : Prop :=
  ∀ w z, w ∈ s.snapped z ↔ s.tag w = some z

end ZoneTree

/-! ## One leaf zone's full local state: `Zone.unsnapWindow` and
`Zone.activateWindow` (Zone.js lines 257-284 and 332-347) -/

namespace ZoneView

/-- The mutable state of one leaf zone that `unsnapWindow` can touch:
the snapped set (`_snappedWindows`, insertion order), the tab bar's
children (`tabs`) and active-styled tab (`tabActive`), the MRU history
(`_history`), the active window (`_activeWindow`), the force-hidden
override, and the tab bar's visibility. -/
@[ext]
structure ZoneLocal where
  snapped : List Nat
  tabs : List Nat
  tabActive : Option Nat
  history : List Nat
  active : Option Nat
  forceHidden : Bool
  visible : Bool
deriving Repr, DecidableEq

/-- `Zone.activateWindow(window)`: a no-op unless the window is snapped
here; otherwise activate it (external), mark its tab active, record it
as the active window, and update the MRU history (dedupe against the
snapped set, prepend, cap at 5). -/
def activateWindow (s : ZoneLocal) (w : Nat) : ZoneLocal :=
  if w ∈ s.snapped then
    { s with
      tabActive := if w ∈ s.tabs then some w else none,
      active := some w,
      history :=
        (w :: s.history.filter (fun v => decide (v ≠ w) && decide (v ∈ s.snapped))).take 5 }
  else s

/-- `Zone._updateVisibility()`: the tab bar is shown iff the zone has at
least one snapped window and is not force-hidden. -/
def updateVisibility (s : ZoneLocal) : ZoneLocal :=
  { s with visible := decide (s.snapped.length > 0) && !s.forceHidden }

/-- The removal block of `unsnapWindow` once the membership test
passed: delete the window from the snapped set, remove its tab (which
also drops its `active` styling), and prune the MRU history against the
already-updated snapped set. -/
def removedState (k : TabBarModel.TabKeys) (s : ZoneLocal) (w : Nat) : ZoneLocal :=
  { s with
    snapped := s.snapped.filter (· ≠ w),
    tabs := TabBarModel.removeTab k s.tabs w,
    tabActive := if s.tabActive = some w then none else s.tabActive,
    history :=
      s.history.filter
        (fun v => decide (v ≠ w) && decide (v ∈ s.snapped.filter (· ≠ w))) }

/-- The active-window fallback of `unsnapWindow` when the removed window
was active: promote the most recent history entry still snapped, else
the first remaining snapped window, else clear the active window. -/
def promoteFallback (s1 : ZoneLocal) : ZoneLocal :=
  match s1.history.find? (fun v => decide (v ∈ s1.snapped)) with
  | some fb => activateWindow s1 fb
  | none =>
    match s1.snapped with
    | n :: _ => activateWindow s1 n
    | [] => { s1 with active := none }

/-- `Zone.unsnapWindow(window)`: if the window is snapped here, remove
it (and, when it was the active window, promote a fallback); in every
case finish by recomputing the tab bar's visibility. -/
def unsnapWindow (k : TabBarModel.TabKeys) (s : ZoneLocal) (w : Nat) : ZoneLocal :=
  updateVisibility
    (if w ∈ s.snapped then
      (if s.active = some w then promoteFallback (removedState k s w)
       else removedState k s w)
     else s)

end ZoneView

/-! ## Tab drag and drop: `TabDND._updatePlaceholder` and
`TabDND._onDragRelease` (TabDND.js lines 255-410) -/

namespace TabDND

/-- The insertion index computed while dragging: the first gap whose
following tab's horizontal midpoint lies beyond the pointer
(`pointerInBar < childMidPoint`), defaulting to the very end of the
bar (`children.length`). `mids` are the midpoints of the visible
non-placeholder children in order. -/
def computeDropIndex (mids : List Int) (pointerInBar : Int) : Nat :=
  match mids with
  | [] => 0
  | m :: t => if pointerInBar < m then 0 else computeDropIndex t pointerInBar + 1

/-- The group-integrity test of `_updatePlaceholder`: the tabs on both
sides of gap `i` exist and share a grouping ID (JS `===`, so two null
IDs also count as shared) different from the dragged group's ID. -/
def rejectAt (children : List (Option String)) (dragged : Option String)
    (i : Nat) : Bool :=
  match (if i = 0 then none else children.get? (i - 1)), children.get? i with
  | some p, some n => p == n && !(dragged == p)
  | _, _ => false

/-- Gap `i` of the visible children lies strictly inside a foreign
group: tabs exist on both sides of it and share a grouping ID different
from the dragged group's grouping ID. -/
def insideForeignGroup (children : List (Option String)) (dragged : Option String)
    (i : Nat) : Prop :=
  i ≠ 0 ∧ ∃ p n, children.get? (i - 1) = some p ∧ children.get? i = some n
    ∧ p = n ∧ dragged ≠ p

/-- One non-placeholder child of a tab bar's container during a drag:
its grouping ID, its visibility (dragged tabs are hidden but stay in
the container of the source bar), and its allocation's horizontal
midpoint (`get_allocation_box().x1 + get_width() / 2`, used only for
visible children). -/
structure DndTab where
  gid : Option String
  visible : Bool
  mid : Int
deriving Repr, DecidableEq

/-- The children `_updatePlaceholder` computes over: the container's
children without the placeholder and without invisible (hidden dragged)
tabs. -/
def visChildren (tabs : List DndTab) : List DndTab :=
  tabs.filter (·.visible)

/-- The placeholder's gap index within the bar's *visible* sequence,
given its position `i` in the full container list: the number of visible
tabs preceding it. -/
def visiblePos (tabs : List DndTab) (i : Nat) : Nat :=
  (tabs.take i).countP (·.visible)

/-- `TabDND._updatePlaceholder` with a host bar under the pointer,
observed as the placeholder's final position among the bar's
non-placeholder container children `tabs` — hidden dragged tabs
included, as in the container (`none` = detached from the bar).
`wasHostedHere` is whether the placeholder's parent was already this
bar's container when the update began; if not, `add_child` first
appends it at the end. The drop index is computed over the *visible*
non-placeholder children and checked for group integrity there, but an
accepted index is applied with `set_child_at_index` over the *full*
child list, so hidden dragged tabs before the insertion point shift the
placeholder left within the visible sequence. When the index is
rejected, the code calls `remove_child` on the *previous* parent: if
the placeholder was already hosted here this detaches it; otherwise the
removal does not affect this bar and the placeholder stays where
`add_child` appended it — at the end. -/
def updatePlaceholder (tabs : List DndTab) (dragged : Option String)
    (pointerInBar : Int) (wasHostedHere : Bool) : Option Nat :=
  if rejectAt ((visChildren tabs).map (·.gid)) dragged
      (computeDropIndex ((visChildren tabs).map (·.mid)) pointerInBar) then
    if wasHostedHere then none else some tabs.length
  else some (computeDropIndex ((visChildren tabs).map (·.mid)) pointerInBar)

/-- The state a drag release can touch: each bar's tab order, each
window's zone association, and each dragged tab's visibility. -/
structure DragWorld where
  bars : List (List Nat)
  assign : Nat → Option Nat
  shown : Nat → Bool

/-- `TabDND._onDragRelease`, observed on `DragWorld`. `host` is the
placeholder's host bar and gap index at release (`none` when the
placeholder has no parent, i.e. the drop is outside any bar):
no host → cancel, only re-show the dragged tabs; host = source bar →
in-bar reorder by splicing the dragged tabs into the stationary ones at
the gap index; host = another bar → cross-zone move. -/
def onDragRelease (w : DragWorld) (dragged : List Nat) (srcBar : Nat)
    (host : Option (Nat × Nat)) : DragWorld :=
  match host with
  | none =>
    { w with shown := fun t => if t ∈ dragged then true else w.shown t }
  | some (bar, dropIndex) =>
    if bar = srcBar then
      let tabs := w.bars.getD bar []
      let stationary := tabs.filter (fun t => decide (t ∉ dragged))
      let final := stationary.take dropIndex ++ dragged ++ stationary.drop dropIndex
      { bars := w.bars.set bar final,
        assign := w.assign,
        shown := fun t => if t ∈ dragged then true else w.shown t }
    else
      -- Modelled from the spec: `WindowManager.moveWindowsToZone` is called
      -- here but its body is not part of the provided sources; per the spec
      -- (section 4.3), a cross-zone move reassigns all dragged windows to the
      -- target zone at the placeholder's index.
      let tgt := w.bars.getD bar []
      let tgtNew := tgt.take dropIndex ++ dragged ++ tgt.drop dropIndex
      let srcNew := (w.bars.getD srcBar []).filter (fun t => decide (t ∉ dragged))
      { bars := (w.bars.set srcBar srcNew).set bar tgtNew,
        assign := fun t => if t ∈ dragged then some bar else w.assign t,
        shown := fun t => if t ∈ dragged then true else w.shown t }

end TabDND

/-! ## Placement core: `WindowManager._isSnappable`,
`WindowManager._findNearestZoneWithinThreshold`,
`WindowManager._onGrabOpEnd` (WindowManager.js lines 325-473) -/

namespace WindowManager

/-- A leaf zone as the geometric queries see it: monitor-relative
rectangle plus monitor index. -/
structure LeafZone where
  x : Int
  y : Int
  width : Int
  height : Int
  monitorIndex : Nat
deriving Repr, DecidableEq

/-- `Zone.rect`: the absolute rectangle, `null` when the zone's monitor
does not exist. `monitors` lists the monitor origins by index. -/
def zoneRect (monitors : List (Int × Int)) (z : LeafZone) :
    Option (Int × Int × Int × Int) :=
  match monitors.get? z.monitorIndex with
  | some m => some (m.1 + z.x, m.2 + z.y, z.width, z.height)
  | none => none

/-- The half-open containment test of `Zone.findLeafZoneAt`. -/
def rectContainsPt (rx ry rw rh px py : Int) : Bool :=
  decide (rx ≤ px) && decide (px < rx + rw)
    && decide (ry ≤ py) && decide (py < ry + rh)

/-- `WindowManager._findLeafZoneAt(x, y)`: the first leaf zone (in
depth-first leaf order over the zone tree) whose absolute rectangle
contains the point; zones without a monitor are skipped (`rect` null).
Zones are identified by their index in the leaf list. -/
def findLeafZoneAt (monitors : List (Int × Int)) (zones : List LeafZone)
    (px py : Int) : Option Nat :=
  List.findIdx?
    (fun z =>
      match zoneRect monitors z with
      | some (rx, ry, rw, rh) => rectContainsPt rx ry rw rh px py
      | none => false)
    zones

/-- `WindowManager._distancePointToRect`, carried as the squared
distance: the code compares `Math.hypot(dx, dy)` values only with `<`
and `≤`, and for non-negative `dx`, `dy` those comparisons agree with
the same comparisons on `dx * dx + dy * dy`, so the model carries the
squares (and squares the threshold). -/
def distSqPointToRect (x y rx ry rw rh : Int) : Int :=
  let rx2 := rx + rw
  let ry2 := ry + rh
  let dx := if x < rx then rx - x else if x > rx2 then x - rx2 else 0
  let dy := if y < ry then ry - y else if y > ry2 then y - ry2 else 0
  dx * dx + dy * dy

/-- `WindowManager._findNearestZoneWithinThreshold(x, y, thresholdPx)`:
over the leaf zones on the pointer's monitor (`monAt`), keep the zone
with the strictly smallest distance (earlier zones win ties), and accept
it only within the threshold. With no leaf zone on that monitor the
result is null; with an undefined monitor origin every distance is NaN
in the source, so no comparison succeeds and the result is also null. -/
def findNearestZoneWithinThreshold (monitors : List (Int × Int))
    (zones : List LeafZone) (x y : Int) (monAt : Nat)
    (thresholdPx : Int) : Option Nat :=
  let leafs := zones.enum.filter (fun p => p.2.monitorIndex == monAt)
  if leafs.isEmpty then none
  else
    match monitors.get? monAt with
    | none => none
    | some m =>
      let best := leafs.foldl
        (fun best p =>
          let d := distSqPointToRect x y (m.1 + p.2.x) (m.2 + p.2.y)
            p.2.width p.2.height
          match best with
          | none => some (p.1, d)
          | some (bi, bd) => if d < bd then some (p.1, d) else some (bi, bd))
        (none : Option (Nat × Int))
      match best with
      | some (bi, bd) => if bd ≤ thresholdPx * thresholdPx then some bi else none
      | none => none

/-- `WindowManager._onGrabOpEnd` for a non-bypassed snappable window,
observed as the pair (zone to unsnap the window from, zone to snap it
into): try a direct hit, else the nearest zone within 48px, else (when
an original zone existed and the pointer's monitor is that zone's
monitor) the original zone; unsnap from the original only when a target
was found and differs from it; snap exactly when a target was found. -/
def onGrabOpEnd (monitors : List (Int × Int)) (zones : List LeafZone)
    (px py : Int) (monAt : Nat) (original : Option Nat) :
    Option Nat × Option Nat :=
  let target0 := findLeafZoneAt monitors zones px py
  let target1 :=
    if target0.isNone then findNearestZoneWithinThreshold monitors zones px py monAt 48
    else target0
  let target2 :=
    if target1.isNone then
      match original with
      | some oz =>
        match zones.get? oz with
        | some z => if monAt = z.monitorIndex then some oz else target1
        | none => target1
      | none => target1
    else target1
  let unsnapFrom :=
    match original, target2 with
    | some oz, some t => if t ≠ oz then some oz else none
    | _, _ => none
  (unsnapFrom, target2)

/-- The effect of the grab-end handler on the global snapped-window
state: perform the unsnap (if any), then the snap (if any); the snapped
window is not maximized or fullscreen (it passed `_isSnappable` and the
grab just ended). -/
def applyGrabEnd (st : ZoneTree.ZoneState) (w : Nat)
    (res : Option Nat × Option Nat) : ZoneTree.ZoneState :=
  let st1 :=
    match res.1 with
    | some z => ZoneTree.unsnapWindow st z w
    | none => st
  match res.2 with
  | some z => ZoneTree.snapWindow st1 z w false
  | none => st1

/-- Window types as `_isSnappable` distinguishes them: only
`Meta.WindowType.NORMAL` is snappable. -/
inductive WindowType where
  | normal
  | dialog
  | dock
deriving Repr, DecidableEq

/-- The window attributes `_isSnappable` reads: fullscreen state, window
type, window class (nullable), and the application's display name
(`null` when the window tracker knows no app for the window). -/
structure WMWindow where
  fullscreen : Bool
  wtype : WindowType
  wmClass : Option String
  appName : Option String
deriving Repr, DecidableEq

/-- The exclusion criteria configuration enum
(`'wmClass' | 'appName'`). -/
inductive ExclusionCriteria where
  | wmClass
  | appName
deriving Repr, DecidableEq

/-- The exclusion configuration: the entry list and the criteria. -/
structure Exclusions where
  list : List String
  criteria : ExclusionCriteria
deriving Repr, DecidableEq

/-- JS `String.prototype.includes`: substring containment,
case-sensitive; the empty string is contained in every string. For a
non-empty separator, `splitOn` yields at least two parts exactly when
the separator occurs. -/
def strIncludes (s item : String) : Bool :=
  if item = "" then true else (s.splitOn item).length ≥ 2

/-- The field `_isSnappable` matches the exclusion list against:
the app's name under the `appName` criteria (null when no app is known),
else the window class. -/
def criteriaField (w : WMWindow) (c : ExclusionCriteria) : Option String :=
  match c with
  | .appName => w.appName
  | .wmClass => w.wmClass

/-- `WindowManager._isSnappable(window)`: false for fullscreen windows;
then, when the exclusion list is non-empty, compute `windowId` from the
criteria field and return false when `windowId` is truthy (non-null and
non-empty) and some list entry is a substring of it; finally true
exactly for `normal`-typed windows. -/
def isSnappable (w : WMWindow) (ex : Exclusions) : Bool :=
  if w.fullscreen then false
  else if ex.list.length > 0 &&
      (match criteriaField w ex.criteria with
       | some id => !(id == "") && ex.list.any (fun item => strIncludes id item)
       | none => false) then false
  else decide (w.wtype = .normal)

end WindowManager

end TabbedTiling

namespace TabbedTiling

/-! ## First theorems: split geometry (C3) and grouping roles (C2) -/

/-- Claim C3: after `split(direction)` on a leaf zone, the two child
rectangles are disjoint, their union is exactly the parent rectangle,
the first child's extent along the split axis is `floor(n / 2)` of the
parent's extent `n`, and the second child's extent is the remainder
`n - floor(n / 2)`, for both even and odd `n`. -/
theorem ZoneGeom.split_partitions_parent (r : ZoneGeom.Rect) (d : ZoneGeom.SplitDir)
    (px py : Nat) :
    ((ZoneGeom.split r d).1.contains px py ∨ (ZoneGeom.split r d).2.contains px py
      ↔ r.contains px py)
    ∧ ¬((ZoneGeom.split r d).1.contains px py ∧ (ZoneGeom.split r d).2.contains px py)
    ∧ (ZoneGeom.split r d).1.extent d = r.extent d / 2
    ∧ (ZoneGeom.split r d).2.extent d = r.extent d - r.extent d / 2 := by
  cases d <;>
    simp only [ZoneGeom.split, ZoneGeom.Rect.contains, ZoneGeom.Rect.extent] <;>
    refine ⟨?_, ?_, trivial, trivial⟩ <;> omega

/-! ### C1: a window is snapped into at most one leaf zone -/

/-- The empty state is consistent. -/
theorem ZoneTree.consistent_initState : ZoneTree.Consistent ZoneTree.initState := by
  intro w z
  simp [ZoneTree.initState]

/-- `unsnapWindow` preserves the set/tag consistency invariant. -/
theorem ZoneTree.consistent_unsnapWindow {s : ZoneTree.ZoneState}
    (hs : ZoneTree.Consistent s) (z : ZoneTree.ZoneId) (w : ZoneTree.Window) :
    ZoneTree.Consistent (ZoneTree.unsnapWindow s z w) := by
  unfold ZoneTree.unsnapWindow
  split
  case isFalse => exact hs
  case isTrue hmem =>
    intro w' z'
    by_cases hw : w' = w
    · subst hw
      by_cases hz : z' = z
      · subst hz
        simp [List.mem_filter]
      · simp only [if_neg hz, if_pos rfl]
        constructor
        · intro h
          have h1 := (hs w' z').mp h
          have h2 := (hs w' z).mp hmem
          rw [h1] at h2
          exact absurd (Option.some.inj h2) hz
        · intro h
          exact absurd h (by simp)
    · by_cases hz : z' = z
      · subst hz
        simp only [if_pos rfl, if_neg hw, List.mem_filter]
        rw [← hs w' z']
        simp [hw]
      · simp only [if_neg hz, if_neg hw]
        exact hs w' z'

/-- `crossUnsnap` preserves the consistency invariant. -/
theorem ZoneTree.consistent_crossUnsnap {s : ZoneTree.ZoneState}
    (hs : ZoneTree.Consistent s) (z : ZoneTree.ZoneId) (w : ZoneTree.Window) :
    ZoneTree.Consistent (ZoneTree.crossUnsnap s z w) := by
  unfold ZoneTree.crossUnsnap
  split
  · split
    · exact ZoneTree.consistent_unsnapWindow hs _ _
    · exact hs
  · exact hs

/-- After the cross-zone step of `snapWindow`, the window's tag is either
absent or already names the target zone. -/
theorem ZoneTree.crossUnsnap_tag {s : ZoneTree.ZoneState}
    (hs : ZoneTree.Consistent s) (z : ZoneTree.ZoneId) (w : ZoneTree.Window) :
    (ZoneTree.crossUnsnap s z w).tag w = none
      ∨ (ZoneTree.crossUnsnap s z w).tag w = some z := by
  unfold ZoneTree.crossUnsnap
  split
  case h_2 heq => exact Or.inl heq
  case h_1 z0 heq =>
    split
    case isFalse hz0 =>
      right
      rw [heq]
      congr
      exact not_not.mp hz0
    case isTrue hz0 =>
      left
      have hmem : w ∈ s.snapped z0 := (hs w z0).mpr heq
      unfold ZoneTree.unsnapWindow
      rw [if_pos hmem]
      simp

/-- `snapWindow` preserves the set/tag consistency invariant. -/
theorem ZoneTree.consistent_snapWindow {s : ZoneTree.ZoneState}
    (hs : ZoneTree.Consistent s) (z : ZoneTree.ZoneId) (w : ZoneTree.Window)
    (b : Bool) : ZoneTree.Consistent (ZoneTree.snapWindow s z w b) := by
  unfold ZoneTree.snapWindow
  split
  case isTrue => exact hs
  case isFalse =>
    have hs1 : ZoneTree.Consistent (ZoneTree.crossUnsnap s z w) :=
      ZoneTree.consistent_crossUnsnap hs z w
    set s1 := ZoneTree.crossUnsnap s z w with hs1def
    show ZoneTree.Consistent
      (if w ∈ s1.snapped z then s1
       else
         { snapped := fun z' => if z' = z then s1.snapped z' ++ [w] else s1.snapped z',
           tag := fun w' => if w' = w then some z else s1.tag w' })
    split
    case isTrue => exact hs1
    case isFalse hnot =>
      have htag : s1.tag w = none := by
        rcases ZoneTree.crossUnsnap_tag hs z w with h | h
        · exact h
        · exact absurd ((hs1 w z).mpr h) hnot
      intro w' z'
      by_cases hw : w' = w
      · subst hw
        by_cases hz : z' = z
        · subst hz
          simp
        · simp [hz, hs1 w' z', htag, Ne.symm hz]
      · by_cases hz : z' = z
        · subst hz
          simp [hw, hs1 w' z']
        · simp [hz, hw, hs1 w' z']

/-- Any sequence of snap/unsnap operations preserves consistency. -/
theorem ZoneTree.consistent_applyOps {s : ZoneTree.ZoneState}
    (hs : ZoneTree.Consistent s) (ops : List ZoneTree.ZoneOp) :
    ZoneTree.Consistent (ZoneTree.applyOps s ops) := by
  induction ops generalizing s with
  | nil => exact hs
  | cons op t ih =>
    cases op with
    | snap z w b => exact ih (ZoneTree.consistent_snapWindow hs z w b)
    | unsnap z w => exact ih (ZoneTree.consistent_unsnapWindow hs z w)

/-- Claim C1: for every sequence of `snapWindow`/`unsnapWindow`
operations over the leaf zones of the zone tree, starting from the
initial (empty) configuration, each window is a member of the
snapped-window set of at most one leaf zone: membership in two zones'
snapped sets forces the zones to be equal. `snapWindow` first unsnaps
the window from any different zone its `_tilingZone` tag names. -/
theorem ZoneTree.window_in_at_most_one_zone (ops : List ZoneTree.ZoneOp)
    (w : ZoneTree.Window) (z1 z2 : ZoneTree.ZoneId)
    (h1 : w ∈ (ZoneTree.applyOps ZoneTree.initState ops).snapped z1)
    (h2 : w ∈ (ZoneTree.applyOps ZoneTree.initState ops).snapped z2) :
    z1 = z2 := by
  have hc := ZoneTree.consistent_applyOps ZoneTree.consistent_initState ops
  have e1 := (hc w z1).mp h1
  have e2 := (hc w z2).mp h2
  rw [e1] at e2
  exact Option.some.inj e2

/-- Witness for C1: after snapping window 3 into zone 0 and then into
zone 1, window 3 is in zone 1's snapped set, and the theorem applies. -/
theorem ZoneTree.window_in_at_most_one_zone_witness :
    (3 ∈ (ZoneTree.applyOps ZoneTree.initState
        [ZoneTree.ZoneOp.snap 0 3 false, ZoneTree.ZoneOp.snap 1 3 false]).snapped 1)
      ∧ (1 : Nat) = 1 :=
  ⟨by decide,
   ZoneTree.window_in_at_most_one_zone
     [ZoneTree.ZoneOp.snap 0 3 false, ZoneTree.ZoneOp.snap 1 3 false]
     3 1 1 (by decide) (by decide)⟩

/-! ### C2: grouping roles of null / "unknown" grouping IDs -/

/-- Counterexample to claim C2: two adjacent tabs whose grouping ID is
the `"unknown"` sentinel (a truthy string) are grouped together by
`_updateGroupStyles` — the first receives `grouped-start`, not solo. -/
theorem TabBarModel.unknown_sentinel_groups_counterexample :
    TabBarModel.idAt [some "unknown", some "unknown"] 0 = some "unknown"
      ∧ TabBarModel.roleAt [some "unknown", some "unknown"] 0
          = TabBarModel.GroupRole.groupStart := by
  exact ⟨rfl, by decide⟩

/-- Claim C2 amended: in the grouping-role pass over a sorted tab
sequence, every tab whose grouping ID is null (JS-falsy) receives the
solo role regardless of its neighbors' grouping IDs; the `"unknown"`
sentinel string, being truthy, is treated as an ordinary grouping ID, so
two adjacent tabs both having the `"unknown"` grouping ID are grouped
together. -/
theorem TabBarModel.null_grouping_id_is_solo (ids : List (Option String)) (i : Nat)
    (h : TabBarModel.idAt ids i = none) :
    TabBarModel.roleAt ids i = TabBarModel.GroupRole.solo := by
  unfold TabBarModel.roleAt
  split
  · rfl
  · simp [h, TabBarModel.truthy]

/-- Witness for the amended C2: the first tab of `[null, "a"]` has a
null grouping ID and receives the solo role. -/
theorem TabBarModel.null_grouping_id_is_solo_witness :
    TabBarModel.idAt [none, some "a"] 0 = none
      ∧ TabBarModel.roleAt [none, some "a"] 0 = TabBarModel.GroupRole.solo :=
  ⟨rfl, TabBarModel.null_grouping_id_is_solo [none, some "a"] 0 rfl⟩

/-! ### C4: `split` then `merge` restores the snapped set -/

/-- Unsnapping every element of a list that covers the accumulator
empties the accumulator. -/
theorem SplitMerge.foldl_unsnapL_eq_nil (l : List Nat) :
    ∀ acc : List Nat, (∀ a ∈ acc, a ∈ l) → l.foldl SplitMerge.unsnapL acc = [] := by
  induction l with
  | nil =>
    intro acc h
    simpa using List.eq_nil_iff_forall_not_mem.mpr fun a ha => by simpa using h a ha
  | cons x t ih =>
    intro acc h
    simp only [List.foldl_cons]
    refine ih (SplitMerge.unsnapL acc x) ?_
    intro a ha
    simp only [SplitMerge.unsnapL, List.mem_filter] at ha
    rcases ha with ⟨ha, hax⟩
    rcases List.mem_cons.mp (h a ha) with h1 | h1
    · exact absurd h1 (by simpa using hax)
    · exact h1

/-- Snapping a duplicate-free list of non-maximized windows into a set
disjoint from it appends the list in order. -/
theorem SplitMerge.foldl_snapL_of_disjoint (maxfs : Nat → Bool) :
    ∀ (l acc : List Nat), (∀ w ∈ l, maxfs w = false) → l.Nodup →
      (∀ w ∈ l, w ∉ acc) → l.foldl (SplitMerge.snapL maxfs) acc = acc ++ l := by
  intro l
  induction l with
  | nil => intro acc _ _ _; simp
  | cons x t ih =>
    intro acc hm hnd hdisj
    have hx : maxfs x = false := hm x (by simp)
    have hxa : x ∉ acc := hdisj x (by simp)
    have hxt : x ∉ t := (List.nodup_cons.mp hnd).1
    simp only [List.foldl_cons]
    rw [show SplitMerge.snapL maxfs acc x = acc ++ [x] from by
      simp [SplitMerge.snapL, hx, hxa]]
    rw [ih (acc ++ [x]) (fun w hw => hm w (List.mem_cons_of_mem x hw))
      (List.nodup_cons.mp hnd).2 ?_]
    · simp
    · intro w hw
      simp only [List.mem_append, List.mem_singleton]
      rintro (h1 | h1)
      · exact hdisj w (List.mem_cons_of_mem x hw) h1
      · exact hxt (h1 ▸ hw)

/-- Claim C4: for a leaf zone, `split(direction)` followed immediately by
`merge()` restores the zone's snapped-window set to the same membership
it had before the split, provided none of the windows is maximized or
fullscreen during the round trip (the snapped set, being a JS `Set`, is
duplicate-free). -/
theorem SplitMerge.split_merge_preserves_membership (maxfs : Nat → Bool)
    (parent : List Nat) (hnd : parent.Nodup)
    (hm : ∀ w ∈ parent, maxfs w = false) (w : Nat) :
    w ∈ SplitMerge.splitThenMerge maxfs parent ↔ w ∈ parent := by
  have h1 : parent.foldl SplitMerge.unsnapL parent = [] :=
    SplitMerge.foldl_unsnapL_eq_nil parent parent (fun a ha => ha)
  have h2 : parent.foldl (SplitMerge.snapL maxfs) [] = parent := by
    simpa using SplitMerge.foldl_snapL_of_disjoint maxfs parent [] hm hnd (by simp)
  simp only [SplitMerge.splitThenMerge, SplitMerge.merge, SplitMerge.split,
    List.append_nil]
  rw [h1, h2, h2]

/-- Witness for C4: the round trip on the snapped set `[1, 2, 3]` with no
window maximized keeps window 2 snapped. -/
theorem SplitMerge.split_merge_preserves_membership_witness :
    List.Nodup [1, 2, 3]
      ∧ (∀ w ∈ [1, 2, 3], (fun _ => false) w = false)
      ∧ (2 ∈ SplitMerge.splitThenMerge (fun _ => false) [1, 2, 3] ↔ 2 ∈ [1, 2, 3]) :=
  ⟨by decide, by decide,
   SplitMerge.split_merge_preserves_membership (fun _ => false) [1, 2, 3]
     (by decide) (by decide) 2⟩

/-! ### C9: `unsnapWindow` is idempotent -/

/-- `activateWindow` never changes the snapped set. -/
theorem ZoneView.activateWindow_snapped (s : ZoneView.ZoneLocal) (w : Nat) :
    (ZoneView.activateWindow s w).snapped = s.snapped := by
  unfold ZoneView.activateWindow
  split <;> rfl

/-- The active-window fallback never changes the snapped set. -/
theorem ZoneView.promoteFallback_snapped (s1 : ZoneView.ZoneLocal) :
    (ZoneView.promoteFallback s1).snapped = s1.snapped := by
  unfold ZoneView.promoteFallback
  split
  · rw [ZoneView.activateWindow_snapped]
  · split
    · rw [ZoneView.activateWindow_snapped]
    · rfl

/-- After `unsnapWindow`, the window is no longer in the snapped set. -/
theorem ZoneView.unsnapWindow_not_mem (k : TabBarModel.TabKeys)
    (s : ZoneView.ZoneLocal) (w : Nat) :
    w ∉ (ZoneView.unsnapWindow k s w).snapped := by
  unfold ZoneView.unsnapWindow ZoneView.updateVisibility
  by_cases h : w ∈ s.snapped
  · simp only [if_pos h]
    by_cases ha : s.active = some w
    · simp only [if_pos ha]
      show w ∉ (ZoneView.promoteFallback (ZoneView.removedState k s w)).snapped
      rw [ZoneView.promoteFallback_snapped]
      simp [ZoneView.removedState, List.mem_filter]
    · simp only [if_neg ha]
      show w ∉ (ZoneView.removedState k s w).snapped
      simp [ZoneView.removedState, List.mem_filter]
  · simp only [if_neg h]
    exact h

/-- On a window that is not snapped, `unsnapWindow` only recomputes the
tab bar's visibility. -/
theorem ZoneView.unsnapWindow_of_not_mem (k : TabBarModel.TabKeys)
    (s : ZoneView.ZoneLocal) (w : Nat) (h : w ∉ s.snapped) :
    ZoneView.unsnapWindow k s w = ZoneView.updateVisibility s := by
  unfold ZoneView.unsnapWindow
  rw [if_neg h]

/-- Claim C9: `unsnapWindow` is idempotent — for every zone state and
every window, the second of two consecutive `unsnapWindow` calls with
the same window is a no-op, leaving the snapped set, the tab bar, the
MRU history, and the active window unchanged. -/
theorem ZoneView.unsnapWindow_idempotent (k : TabBarModel.TabKeys)
    (s : ZoneView.ZoneLocal) (w : Nat) :
    ZoneView.unsnapWindow k (ZoneView.unsnapWindow k s w) w
      = ZoneView.unsnapWindow k s w := by
  rw [ZoneView.unsnapWindow_of_not_mem k _ w (ZoneView.unsnapWindow_not_mem k s w)]
  unfold ZoneView.unsnapWindow
  rfl

/-! ### C10: `addTab` on a window that already has a tab -/

/-- Claim C10: calling `addTab` with a window that already has a tab does
not create a second tab and leaves the tabs and their order unchanged;
its only effect is to mark that window's existing tab as the active
tab. -/
theorem TabBarModel.addTab_existing_only_activates (k : TabBarModel.TabKeys)
    (s : TabBarModel.TabBarState) (w : Nat) (h : w ∈ s.tabs) :
    (TabBarModel.addTab k s w).tabs = s.tabs
      ∧ (TabBarModel.addTab k s w).active = some w := by
  simp [TabBarModel.addTab, TabBarModel.setActiveTab, h]

/-- Witness for C10: re-adding window 1 to a bar holding tabs `[1, 2]`
keeps the tabs `[1, 2]` and marks window 1 active. -/
theorem TabBarModel.addTab_existing_only_activates_witness :
    1 ∈ (TabBarModel.TabBarState.mk [1, 2] none).tabs
      ∧ (TabBarModel.addTab ⟨fun _ => "", fun _ => "", false⟩
            (TabBarModel.TabBarState.mk [1, 2] none) 1).tabs = [1, 2]
      ∧ (TabBarModel.addTab ⟨fun _ => "", fun _ => "", false⟩
            (TabBarModel.TabBarState.mk [1, 2] none) 1).active = some 1 :=
  ⟨by decide,
   (TabBarModel.addTab_existing_only_activates ⟨fun _ => "", fun _ => "", false⟩
      (TabBarModel.TabBarState.mk [1, 2] none) 1 (by decide)).1,
   (TabBarModel.addTab_existing_only_activates ⟨fun _ => "", fun _ => "", false⟩
      (TabBarModel.TabBarState.mk [1, 2] none) 1 (by decide)).2⟩

/-! ### C5: the drag placeholder and foreign groups -/

/-- The group-integrity test of `_updatePlaceholder` fires exactly on
gaps strictly inside a foreign group. -/
theorem TabDND.rejectAt_iff_insideForeignGroup (children : List (Option String))
    (dragged : Option String) (i : Nat) :
    TabDND.rejectAt children dragged i = true
      ↔ TabDND.insideForeignGroup children dragged i := by
  unfold TabDND.rejectAt TabDND.insideForeignGroup
  by_cases hi : i = 0
  · simp [hi]
  · rw [if_neg hi]
    cases hp : children.get? (i - 1) with
    | none => simp [hi]
    | some p =>
      cases hn : children.get? i with
      | none => simp [hi]
      | some n =>
        dsimp only
        simp only [Bool.and_eq_true, beq_iff_eq, Bool.not_eq_true']
        constructor
        · rintro ⟨hpn, hd⟩
          exact ⟨hi, p, n, rfl, rfl, hpn, by simpa using hd⟩
        · rintro ⟨-, p', n', hp', hn', hpn, hd⟩
          obtain rfl := Option.some.inj hp'
          obtain rfl := Option.some.inj hn'
          exact ⟨hpn, by simpa using hd⟩

/-- The computed drop index never exceeds the number of midpoints. -/
theorem TabDND.computeDropIndex_le (mids : List Int) (pb : Int) :
    TabDND.computeDropIndex mids pb ≤ mids.length := by
  induction mids with
  | nil => simp [TabDND.computeDropIndex]
  | cons m t ih =>
    unfold TabDND.computeDropIndex
    by_cases hp : pb < m
    · simp [hp]
    · simp only [hp, if_false, List.length_cons]
      omega

/-- With every tab visible, the visible children are all the tabs. -/
theorem TabDND.visChildren_all_visible (tabs : List TabDND.DndTab)
    (h : ∀ t ∈ tabs, t.visible = true) : TabDND.visChildren tabs = tabs :=
  List.filter_eq_self.mpr h

/-- With every tab visible, a full-list position within bounds is its
own visible position. -/
theorem TabDND.visiblePos_all_visible (tabs : List TabDND.DndTab)
    (h : ∀ t ∈ tabs, t.visible = true) (i : Nat) (hi : i ≤ tabs.length) :
    TabDND.visiblePos tabs i = i := by
  unfold TabDND.visiblePos
  rw [List.countP_eq_length.mpr (fun a ha => h a (List.take_subset i tabs ha)),
    List.length_take]
  omega

/-- Counterexample to claim C5, both conjuncts. (i) In the source bar
`[hidden dragged tab of group "d", "x", "x"]` with the pointer at the
bar's far right, the visible drop index 2 passes the group-integrity
check (no tab follows it among the visible children), but
`set_child_at_index` applies it over the full child list, where the
hidden tab occupies position 0 — the placeholder ends at full position
2, i.e. visible gap 1, strictly inside the foreign group "x".
(ii) When the check does fire (solo "b" dropped between two "a" tabs),
the placeholder is detached (`none`), not left at its previous valid
position. -/
theorem TabDND.placeholder_inside_group_counterexample :
    TabDND.updatePlaceholder
        [⟨some "d", false, 0⟩, ⟨some "x", true, 10⟩, ⟨some "x", true, 30⟩]
        (some "d") 100 true = some 2
      ∧ TabDND.visiblePos
          [⟨some "d", false, 0⟩, ⟨some "x", true, 10⟩, ⟨some "x", true, 30⟩] 2 = 1
      ∧ TabDND.insideForeignGroup [some "x", some "x"] (some "d") 1
      ∧ TabDND.updatePlaceholder [⟨some "a", true, 10⟩, ⟨some "a", true, 30⟩]
          (some "b") 20 true = none :=
  ⟨by decide, by decide,
   ⟨by decide, some "x", some "x", rfl, rfl, rfl, by decide⟩, by decide⟩

/-- Claim C5 amended: in a bar none of whose non-placeholder children
are hidden — every bar other than the source bar, since only the
dragged tabs are hidden — the placeholder is never placed strictly
inside another group, and when such an index is computed it is rejected:
the placeholder is detached from the bar when the bar was already
hosting it, or left appended at the bar's end (also outside every group)
when it had just been re-parented into it — never left at its previous
position. In the source bar, hidden dragged tabs preceding the insertion
point shift the applied index by their count, and the placeholder can
land strictly inside another group. -/
theorem TabDND.placeholder_outside_groups_when_all_visible
    (tabs : List TabDND.DndTab) (dragged : Option String) (pointerInBar : Int)
    (wasHostedHere : Bool) (hvis : ∀ t ∈ tabs, t.visible = true) :
    (∀ i, TabDND.updatePlaceholder tabs dragged pointerInBar wasHostedHere = some i
        → ¬ TabDND.insideForeignGroup ((TabDND.visChildren tabs).map (·.gid)) dragged
            (TabDND.visiblePos tabs i))
    ∧ (TabDND.rejectAt ((TabDND.visChildren tabs).map (·.gid)) dragged
          (TabDND.computeDropIndex ((TabDND.visChildren tabs).map (·.mid)) pointerInBar)
            = true
        → TabDND.updatePlaceholder tabs dragged pointerInBar wasHostedHere
            = if wasHostedHere then none else some tabs.length) := by
  have hvc : TabDND.visChildren tabs = tabs := TabDND.visChildren_all_visible tabs hvis
  constructor
  · intro i hres hin
    unfold TabDND.updatePlaceholder at hres
    by_cases hr : TabDND.rejectAt ((TabDND.visChildren tabs).map (·.gid)) dragged
        (TabDND.computeDropIndex ((TabDND.visChildren tabs).map (·.mid)) pointerInBar)
          = true
    · rw [if_pos hr] at hres
      cases wasHostedHere with
      | true => simp at hres
      | false =>
        simp only [Bool.false_eq_true, if_false, Option.some.injEq] at hres
        rw [← hres, TabDND.visiblePos_all_visible tabs hvis tabs.length (le_refl _)]
          at hin
        obtain ⟨-, p, n, -, hn, -, -⟩ := hin
        rw [List.get?_eq_none.mpr (by simp [hvc])] at hn
        exact Option.noConfusion hn
    · rw [if_neg hr] at hres
      have hle : TabDND.computeDropIndex ((TabDND.visChildren tabs).map (·.mid))
          pointerInBar ≤ tabs.length := by
        have := TabDND.computeDropIndex_le ((TabDND.visChildren tabs).map (·.mid))
          pointerInBar
        simpa [hvc] using this
      rw [← Option.some.inj hres, TabDND.visiblePos_all_visible tabs hvis _ hle] at hin
      exact hr ((TabDND.rejectAt_iff_insideForeignGroup _ dragged _).mpr hin)
  · intro hr
    unfold TabDND.updatePlaceholder
    rw [if_pos hr]

/-- Witness for the amended C5: a rejecting drop into the all-visible
bar `["g", "g"]` from outside the bar leaves the placeholder appended at
the bar's end (full position 2). -/
theorem TabDND.placeholder_outside_groups_when_all_visible_witness :
    (∀ t ∈ [(⟨some "g", true, 0⟩ : TabDND.DndTab), ⟨some "g", true, 100⟩],
        t.visible = true)
      ∧ TabDND.updatePlaceholder
          [⟨some "g", true, 0⟩, ⟨some "g", true, 100⟩] none 50 false = some 2 := by
  refine ⟨by decide, ?_⟩
  have h := (TabDND.placeholder_outside_groups_when_all_visible
    [⟨some "g", true, 0⟩, ⟨some "g", true, 100⟩] none 50 false (by decide)).2
    (by decide)
  simpa using h

/-! ### C6: release outside any bar is a cancel -/

/-- Claim C6: when the drag button is released while the placeholder has
no host tab bar, the operation is a cancel: every bar's tab order and
every window's zone association are unchanged (no window is unsnapped,
moved, or reordered), the dragged tabs become visible again, and no
other tab's visibility changes. -/
theorem TabDND.release_outside_any_bar_is_cancel (w : TabDND.DragWorld)
    (dragged : List Nat) (srcBar : Nat) :
    (TabDND.onDragRelease w dragged srcBar none).bars = w.bars
    ∧ (TabDND.onDragRelease w dragged srcBar none).assign = w.assign
    ∧ (∀ t, t ∈ dragged → (TabDND.onDragRelease w dragged srcBar none).shown t = true)
    ∧ (∀ t, t ∉ dragged →
        (TabDND.onDragRelease w dragged srcBar none).shown t = w.shown t) := by
  refine ⟨rfl, rfl, ?_, ?_⟩ <;> intro t ht <;> simp [TabDND.onDragRelease, ht]

/-- Witness for C6: cancelling a drag of tab 1 out of a world with one
bar `[1, 2]` re-shows tab 1. -/
theorem TabDND.release_outside_any_bar_is_cancel_witness :
    1 ∈ [1]
      ∧ (TabDND.onDragRelease ⟨[[1, 2]], fun _ => none, fun _ => false⟩
          [1] 0 none).shown 1 = true :=
  ⟨by decide,
   (TabDND.release_outside_any_bar_is_cancel
      ⟨[[1, 2]], fun _ => none, fun _ => false⟩ [1] 0).2.2.1 1 (by decide)⟩

/-! ### C7: grab-end target resolution -/

/-- The unsnap decision of the grab-end handler, as a function of the
original zone and the resolved target. -/
theorem WindowManager.onGrabOpEnd_fst (monitors : List (Int × Int))
    (zones : List WindowManager.LeafZone) (px py : Int) (monAt : Nat)
    (original : Option Nat) :
    (WindowManager.onGrabOpEnd monitors zones px py monAt original).1 =
      match original, (WindowManager.onGrabOpEnd monitors zones px py monAt original).2 with
      | some oz, some t => if t ≠ oz then some oz else none
      | _, _ => none := rfl

/-- Counterexample to claim C7: the pointer is released on monitor 1,
which has no zones, while the window's original zone lives on monitor 0.
No target is resolved, so neither unsnap nor snap happens — and the
window remains snapped in its original zone, it is not left unzoned. -/
theorem WindowManager.no_target_keeps_original_zone_counterexample :
    WindowManager.onGrabOpEnd [(0, 0)] [⟨0, 0, 100, 100, 0⟩] 500 0 1 (some 0)
        = (none, none)
      ∧ 7 ∈ (WindowManager.applyGrabEnd
          ⟨fun z => if z = 0 then [7] else [], fun w => if w = 7 then some 0 else none⟩
          7 (WindowManager.onGrabOpEnd [(0, 0)] [⟨0, 0, 100, 100, 0⟩] 500 0 1
              (some 0))).snapped 0 :=
  ⟨by decide, by decide⟩

/-- Claim C7 amended: on grab-end for a non-bypassed snappable window,
the target zone is resolved as: leaf zone directly containing the
pointer, else nearest leaf zone within the threshold, else the original
zone when one existed and the pointer's monitor equals that zone's
monitor; the window is unsnapped from the original exactly when a target
was found that differs from it; it is snapped exactly into the found
target; and when no target is found nothing is unsnapped or snapped, so
the window keeps whatever zone association it had — it is left unzoned
only if it had none. -/
theorem WindowManager.grab_end_resolution_order (monitors : List (Int × Int))
    (zones : List WindowManager.LeafZone) (px py : Int) (monAt : Nat)
    (original : Option Nat) :
    ((WindowManager.onGrabOpEnd monitors zones px py monAt original).2 =
      (match WindowManager.findLeafZoneAt monitors zones px py with
       | some z => some z
       | none =>
         match WindowManager.findNearestZoneWithinThreshold monitors zones px py monAt 48 with
         | some z => some z
         | none =>
           match original with
           | some oz =>
             match zones.get? oz with
             | some zz => if monAt = zz.monitorIndex then some oz else none
             | none => none
           | none => none))
    ∧ (∀ oz, (WindowManager.onGrabOpEnd monitors zones px py monAt original).1 = some oz
        ↔ original = some oz
          ∧ ∃ t, (WindowManager.onGrabOpEnd monitors zones px py monAt original).2 = some t
              ∧ t ≠ oz)
    ∧ ((WindowManager.onGrabOpEnd monitors zones px py monAt original).2 = none
        → ∀ (st : TabbedTiling.ZoneTree.ZoneState) (w : Nat),
            WindowManager.applyGrabEnd st w
              (WindowManager.onGrabOpEnd monitors zones px py monAt original) = st) := by
  refine ⟨?_, ?_, ?_⟩
  · cases h0 : WindowManager.findLeafZoneAt monitors zones px py with
    | some z => simp [WindowManager.onGrabOpEnd, h0]
    | none =>
      cases h1 : WindowManager.findNearestZoneWithinThreshold monitors zones px py monAt 48 with
      | some z => simp [WindowManager.onGrabOpEnd, h0, h1]
      | none =>
        cases original with
        | none => simp [WindowManager.onGrabOpEnd, h0, h1]
        | some oz =>
          cases h2 : zones.get? oz with
          | some zz => simp [WindowManager.onGrabOpEnd, h0, h1, h2]
          | none => simp [WindowManager.onGrabOpEnd, h0, h1, h2]
  · intro oz
    rw [WindowManager.onGrabOpEnd_fst]
    cases original with
    | none => simp
    | some oz' =>
      cases ht2 : (WindowManager.onGrabOpEnd monitors zones px py monAt (some oz')).2 with
      | none => simp
      | some t =>
        dsimp only
        by_cases ht : t = oz'
        · subst ht
          simp
        · rw [if_pos ht]
          constructor
          · intro h
            obtain rfl := Option.some.inj h
            exact ⟨rfl, t, rfl, ht⟩
          · rintro ⟨h, -⟩
            exact h
  · intro h2 st w
    have h1 : (WindowManager.onGrabOpEnd monitors zones px py monAt original).1 = none := by
      rw [WindowManager.onGrabOpEnd_fst, h2]
      cases original <;> rfl
    simp [WindowManager.applyGrabEnd, h1, h2]

/-- Witness for the amended C7: at the counterexample input the resolved
target is `none` and the handler leaves the snapped-window state
unchanged. -/
theorem WindowManager.grab_end_resolution_order_witness :
    (WindowManager.onGrabOpEnd [(0, 0)] [⟨0, 0, 100, 100, 0⟩] 500 0 1 (some 0)).2 = none
      ∧ WindowManager.applyGrabEnd
          ⟨fun z => if z = 0 then [7] else [], fun w => if w = 7 then some 0 else none⟩
          7 (WindowManager.onGrabOpEnd [(0, 0)] [⟨0, 0, 100, 100, 0⟩] 500 0 1 (some 0))
        = ⟨fun z => if z = 0 then [7] else [], fun w => if w = 7 then some 0 else none⟩ :=
  ⟨by decide,
   (WindowManager.grab_end_resolution_order [(0, 0)] [⟨0, 0, 100, 100, 0⟩] 500 0 1
      (some 0)).2.2 (by decide)
     ⟨fun z => if z = 0 then [7] else [], fun w => if w = 7 then some 0 else none⟩ 7⟩

/-! ### C8: `_isSnappable` -/

/-- Counterexample to claim C8: a non-fullscreen normal window whose
window class is the empty string, with criteria `wmClass` and exclusion
list `[""]`: the criteria field contains the configured entry as a
substring, yet `_isSnappable` returns true, because the empty `windowId`
is JS-falsy and is never matched against the exclusion list. -/
theorem WindowManager.isSnappable_empty_field_counterexample :
    WindowManager.isSnappable ⟨false, .normal, some "", none⟩
        ⟨[""], .wmClass⟩ = true
      ∧ WindowManager.criteriaField ⟨false, .normal, some "", none⟩
          WindowManager.ExclusionCriteria.wmClass = some ""
      ∧ WindowManager.strIncludes "" "" = true :=
  ⟨by decide, rfl, by decide⟩

/-- Claim C8 amended: `_isSnappable(window)` returns false exactly when
the window is fullscreen, or its window type is not normal, or the
configured criteria field of the window (its app name under the
`appName` criteria, else its window class) is present and non-empty
(JS-truthy) and contains some configured exclusion-list entry as a
case-sensitive substring; a null or empty criteria field is never
matched against the exclusion list. -/
theorem WindowManager.isSnappable_false_iff (w : WindowManager.WMWindow)
    (ex : WindowManager.Exclusions) :
    WindowManager.isSnappable w ex = false
      ↔ (w.fullscreen = true
          ∨ w.wtype ≠ WindowManager.WindowType.normal
          ∨ ∃ id, WindowManager.criteriaField w ex.criteria = some id ∧ id ≠ ""
              ∧ ∃ item ∈ ex.list, WindowManager.strIncludes id item = true) := by
  cases hf : w.fullscreen with
  | true => simp [WindowManager.isSnappable, hf]
  | false =>
    have hcond : (ex.list.length > 0 &&
        (match WindowManager.criteriaField w ex.criteria with
         | some id => !(id == "") && ex.list.any (fun item => WindowManager.strIncludes id item)
         | none => false)) = true
      ↔ (∃ id, WindowManager.criteriaField w ex.criteria = some id ∧ id ≠ ""
          ∧ ∃ item ∈ ex.list, WindowManager.strIncludes id item = true) := by
      cases hcf : WindowManager.criteriaField w ex.criteria with
      | none => simp [hcf]
      | some id =>
        simp only [hcf, Bool.and_eq_true, decide_eq_true_eq, Bool.not_eq_true',
          beq_eq_false_iff_ne, ne_eq, List.any_eq_true, Option.some.injEq]
        constructor
        · rintro ⟨-, hne, item, hitem, hinc⟩
          exact ⟨id, rfl, hne, item, hitem, hinc⟩
        · rintro ⟨id', hid', hne, item, hitem, hinc⟩
          subst hid'
          exact ⟨List.length_pos.mpr (List.ne_nil_of_mem hitem), hne, item, hitem, hinc⟩
    unfold WindowManager.isSnappable
    rw [hf]
    by_cases hc : (ex.list.length > 0 &&
        (match WindowManager.criteriaField w ex.criteria with
         | some id => !(id == "") && ex.list.any (fun item => WindowManager.strIncludes id item)
         | none => false)) = true
    · simp only [Bool.false_eq_true, if_false, if_pos hc]
      constructor
      · intro _
        exact Or.inr (Or.inr (hcond.mp hc))
      · intro _
        trivial
    · simp only [Bool.false_eq_true, if_false, if_neg hc]
      have hthird := fun h => hc (hcond.mpr h)
      simp only [decide_eq_false_iff_not, Bool.false_eq_true, false_or, ne_eq]
      constructor
      · exact fun h => Or.inl h
      · rintro (h | h)
        · exact h
        · exact absurd h hthird

end TabbedTiling
